import Mathlib

/-!
Shallow embedding of `dataset.py` (the march-madness data loader).
CSV files are modelled as in-memory data frames: a list of column names
plus rows of optional cells, positionally aligned with the columns.
The pandas operations used by the source are modelled on that
representation, the `Dataset` class becomes a structure built by
`Dataset.init`, and its five query methods become functions on it.
-/

/-- A cell value: the CSV columns hold integers or strings. -/
inductive Val where
  | int : Int → Val
  | str : String → Val
deriving DecidableEq

/-- A cell of a data frame; `none` models a missing value (pandas NaN). -/
abbrev Cell := Option Val

/-- A pandas DataFrame: named columns and rows of cells, each row laid
out positionally against the column list. -/
structure DataFrame where
  cols : List String
  rows : List (List Cell)
deriving DecidableEq

/-- The cell of row `r` at the column named `name` (first occurrence of
the name); `none` when the column is absent or the row is too short. -/
def rowGet : List String → List Cell → String → Cell
  | [], _, _ => none
  | _ :: _, [], _ => none
  | c :: cs, v :: vs, name => if c = name then v else rowGet cs vs name

/-- Model of the boolean mask `df[col] < n` at one cell: an integer cell
compares numerically, a NaN (or non-numeric) cell compares false. -/
def cellLtInt : Cell → Int → Bool
  | some (.int i), n => decide (i < n)
  | _, _ => false

/-- Model of the boolean mask `df[col] == n` at one cell: NaN (or a
non-numeric cell) is not equal to any integer. -/
def cellEqInt : Cell → Int → Bool
  | some (.int i), n => decide (i = n)
  | _, _ => false

/-- Model of `df[col].isin(l)` at one cell, for a list of integers. -/
def cellInInts : Cell → List Int → Bool
  | some (.int i), l => decide (i ∈ l)
  | _, _ => false

/-- The column `df[name]` as a list of cells (`df.Name` in the source). -/
def DataFrame.column (df : DataFrame) (name : String) : List Cell :=
  df.rows.map (fun r => rowGet df.cols r name)

/-- Model of `df.loc[df[col] < n]`. -/
def DataFrame.filterLt (df : DataFrame) (col : String) (n : Int) : DataFrame :=
  ⟨df.cols, df.rows.filter (fun r => cellLtInt (rowGet df.cols r col) n)⟩

/-- Model of `df.loc[df[col] == n]`. -/
def DataFrame.filterEq (df : DataFrame) (col : String) (n : Int) : DataFrame :=
  ⟨df.cols, df.rows.filter (fun r => cellEqInt (rowGet df.cols r col) n)⟩

/-- Model of `df.loc[df[col].isin(l)]`. -/
def DataFrame.filterIsin (df : DataFrame) (col : String) (l : List Int) : DataFrame :=
  ⟨df.cols, df.rows.filter (fun r => cellInInts (rowGet df.cols r col) l)⟩

/-- A row laid out for the `src` schema, re-expressed in the `tgt`
schema; columns absent from `src` become null.  This is the reindexing
pandas performs on each operand of `concat`. -/
def reindexRow (src tgt : List String) (r : List Cell) : List Cell :=
  tgt.map (fun c => rowGet src r c)

/-- Model of `pd.concat((a, b))`: the column set is the union (the
columns of `a` followed by the new columns of `b`), the rows of `a` are
stacked on top of the rows of `b`, each reindexed to the union schema. -/
def pdConcat (a b : DataFrame) : DataFrame :=
  let cols := a.cols ++ b.cols.filter (fun c => decide (¬ c ∈ a.cols))
  ⟨cols, a.rows.map (reindexRow a.cols cols) ++ b.rows.map (reindexRow b.cols cols)⟩

/-- The Python exceptions the modelled code can raise. -/
inductive PyError where
  | keyError
  | typeError
deriving DecidableEq

/-- Model of `df[headers]`: projects to the listed columns in the given
order; a header missing from the frame raises KeyError. -/
def DataFrame.project (df : DataFrame) (headers : List String) :
    Except PyError DataFrame :=
  if ∀ c ∈ headers, c ∈ df.cols then
    .ok ⟨headers, df.rows.map (fun r => headers.map (fun c => rowGet df.cols r c))⟩
  else .error .keyError

/-- Model of `Series.unique().tolist()`: the distinct values in order of
first occurrence; `seen` accumulates the values already emitted. -/
def uniqAux (seen : List Cell) : List Cell → List Cell
  | [] => []
  | x :: xs => if x ∈ seen then uniqAux seen xs else x :: uniqAux (x :: seen) xs

/-- Lookup in a Python `dict` built by `dict(kvs)` from an ordered list
of key-value pairs: the last binding of a key wins. -/
def dictGet : List (Cell × Cell) → Cell → Option Cell
  | [], _ => none
  | p :: rest, k =>
      match dictGet rest k with
      | some v => some v
      | none => if p.1 = k then some p.2 else none

/-- The runtime shapes the `season` argument of `getRegularGames` and
`getTourneyGames` can take in Python: `None`; a value whose type is
exactly `int`; a `bool` (standing for any non-iterable scalar whose type
is not `int`); or an iterable of integers. -/
inductive SeasonArg where
  | noneArg : SeasonArg
  | intArg : Int → SeasonArg
  | boolArg : Bool → SeasonArg
  | iterArg : List Int → SeasonArg
deriving DecidableEq

/-- Model of `list(season)` on a non-`None` argument: an iterable
converts to its list of elements, any scalar raises TypeError. -/
def SeasonArg.pyList : SeasonArg → Except PyError (List Int)
  | .iterArg l => .ok l
  | _ => .error .typeError

/-- The attributes a `Dataset` instance holds after `__init__`; `teams`
is the ordered key-value list of `dict(zip(df.Team_Id, df.Team_Name))`,
read through `dictGet`. -/
structure Dataset where
  regular_results : DataFrame
  tourney_results : DataFrame
  compact_headers : List String
  detailed_headers : List String
  teams : List (Cell × Cell)
  seasons : DataFrame
  seeds : DataFrame
  slots : DataFrame
deriving DecidableEq

/-- Model of `Dataset.__init__`: the eight arguments are the parsed
contents of the CSV files in the order the constructor reads them
(`RegularSeasonCompactResults`, `TourneyCompactResults`,
`RegularSeasonDetailedResults`, `TourneyDetailedResults`, `Teams`,
`Seasons`, `TourneySeeds`, `TourneySlots`). -/
def Dataset.init (regular_comp tourney_comp regular_det tourney_det
    teamsDf seasonsDf seedsDf slotsDf : DataFrame) : Dataset :=
  { regular_results := pdConcat (regular_comp.filterLt "Season" 2003) regular_det
    tourney_results := pdConcat (tourney_comp.filterLt "Season" 2003) tourney_det
    compact_headers := regular_comp.cols
    detailed_headers := regular_det.cols
    teams := List.zip (teamsDf.column "Team_Id") (teamsDf.column "Team_Name")
    seasons := seasonsDf
    seeds := seedsDf
    slots := slotsDf }

/-- Model of `Dataset.getTeam`: `self.teams[id]`; KeyError when the id
is not a key of the dict. -/
def Dataset.getTeam (ds : Dataset) (id : Int) : Except PyError Cell :=
  match dictGet ds.teams (some (.int id)) with
  | some v => .ok v
  | none => .error .keyError

/-- Model of `Dataset.getYears`: `self.seasons.Season.unique().tolist()`. -/
def Dataset.getYears (ds : Dataset) : List Cell :=
  uniqAux [] (ds.seasons.column "Season")

/-- Model of `Dataset.getSeeds`: filter the seed table to the given
season and build `dict(zip(df.Team, df.Seed))`, kept as the ordered
key-value list, with `dictGet` giving the dict lookup semantics. -/
def Dataset.getSeeds (ds : Dataset) (season : Int) : List (Cell × Cell) :=
  let df := ds.seeds.filterEq "Season" season
  List.zip (df.column "Team") (df.column "Seed")

/-- Model of `Dataset.getRegularGames`: an `int` season is first wrapped
into a one-element list; the header list is chosen by `compact`; a
`None` season skips filtering; otherwise the rows whose `Season` is in
`list(season)` are kept; finally the frame is projected to the headers. -/
def Dataset.getRegularGames (ds : Dataset) (season : SeasonArg := .noneArg)
    (compact : Bool := true) : Except PyError DataFrame :=
  let season := match season with
    | .intArg n => SeasonArg.iterArg [n]
    | s => s
  let headers := if compact then ds.compact_headers else ds.detailed_headers
  match season with
  | .noneArg => ds.regular_results.project headers
  | s => do
      let l ← s.pyList
      (ds.regular_results.filterIsin "Season" l).project headers

/-- Model of `Dataset.getTourneyGames`: same body as `getRegularGames`
but over the merged tournament table. -/
def Dataset.getTourneyGames (ds : Dataset) (season : SeasonArg := .noneArg)
    (compact : Bool := true) : Except PyError DataFrame :=
  let season := match season with
    | .intArg n => SeasonArg.iterArg [n]
    | s => s
  let headers := if compact then ds.compact_headers else ds.detailed_headers
  match season with
  | .noneArg => ds.tourney_results.project headers
  | s => do
      let l ← s.pyList
      (ds.tourney_results.filterIsin "Season" l).project headers

/-- Explicit state-passing form of the `getTeam` method body: the call
returns its value together with the instance state after the call.  The
body contains no attribute assignment, so the state passes through. -/
def Dataset.getTeamSt (ds : Dataset) (id : Int) :
    Except PyError Cell × Dataset :=
  (ds.getTeam id, ds)

/-- Explicit state-passing form of the `getYears` method body. -/
def Dataset.getYearsSt (ds : Dataset) : List Cell × Dataset :=
  (ds.getYears, ds)

/-- Explicit state-passing form of the `getSeeds` method body. -/
def Dataset.getSeedsSt (ds : Dataset) (season : Int) :
    List (Cell × Cell) × Dataset :=
  (ds.getSeeds season, ds)

/-- Explicit state-passing form of the `getRegularGames` method body. -/
def Dataset.getRegularGamesSt (ds : Dataset) (season : SeasonArg)
    (compact : Bool) : Except PyError DataFrame × Dataset :=
  (ds.getRegularGames season compact, ds)

/-- Explicit state-passing form of the `getTourneyGames` method body. -/
def Dataset.getTourneyGamesSt (ds : Dataset) (season : SeasonArg)
    (compact : Bool) : Except PyError DataFrame × Dataset :=
  (ds.getTourneyGames season compact, ds)

/-- A concrete basic-schema regular-season file used to instantiate the
theorems on concrete data: one pre-2003 row and one 2003 row. -/
def rcS : DataFrame :=
  ⟨["Season", "Wteam"],
   [[some (.int 1985), some (.int 3)], [some (.int 2003), some (.int 4)]]⟩

/-- A concrete basic-schema tournament file. -/
def tcS : DataFrame :=
  ⟨["Season", "Wteam"], [[some (.int 1985), some (.int 3)]]⟩

/-- A concrete extended-schema regular-season file. -/
def rdS : DataFrame :=
  ⟨["Season", "Wteam", "Wfgm"],
   [[some (.int 2003), some (.int 4), some (.int 20)]]⟩

/-- A concrete extended-schema tournament file. -/
def tdS : DataFrame :=
  ⟨["Season", "Wteam", "Wfgm"],
   [[some (.int 2003), some (.int 4), some (.int 21)]]⟩

/-- A concrete `Teams.csv`. -/
def tmS : DataFrame :=
  ⟨["Team_Id", "Team_Name"],
   [[some (.int 3), some (.str "Duke")], [some (.int 4), some (.str "Kansas")]]⟩

/-- A concrete `Seasons.csv` with a duplicated year. -/
def ssS : DataFrame :=
  ⟨["Season"], [[some (.int 1985)], [some (.int 2003)], [some (.int 1985)]]⟩

/-- A concrete `TourneySeeds.csv` with a duplicated team id in 2003. -/
def sdS : DataFrame :=
  ⟨["Season", "Seed", "Team"],
   [[some (.int 2003), some (.str "W01"), some (.int 4)],
    [some (.int 2003), some (.str "W02"), some (.int 4)]]⟩

/-- A concrete `TourneySlots.csv`. -/
def slS : DataFrame := ⟨["Season"], []⟩

/-- The dataset built from the concrete files above. -/
def dsS : Dataset := Dataset.init rcS tcS rdS tdS tmS ssS sdS slS

/-- A tournament file pair whose schema lacks the `Wteam` column of the
regular-season files, to exercise the KeyError path of
`getTourneyGames`. -/
def tcB : DataFrame := ⟨["Season"], [[some (.int 1985)]]⟩

/-- The extended counterpart of `tcB`, also lacking `Wteam`. -/
def tdB : DataFrame := ⟨["Season"], [[some (.int 2003)]]⟩

/-- The dataset whose tournament tables are missing a regular-season
column. -/
def dsB : Dataset := Dataset.init rcS tcB rdS tdB tmS ssS sdS slS

/-! ### Basic lemmas about the embedding -/

theorem rowGet_not_mem : ∀ (cols : List String) (r : List Cell) (c : String),
    c ∉ cols → rowGet cols r c = none
  | [], r, _, _ => by cases r <;> rfl
  | _ :: _, [], _, _ => rfl
  | a :: as, v :: vs, c, h => by
      have h1 : ¬ a = c := fun e => h (by rw [e]; exact List.mem_cons_self c as)
      have h2 : c ∉ as := fun hm => h (List.mem_cons_of_mem a hm)
      simp only [rowGet, if_neg h1]
      exact rowGet_not_mem as vs c h2

theorem rowGet_map_self : ∀ (cols : List String) (f : String → Cell) (c : String),
    c ∈ cols → rowGet cols (cols.map f) c = f c
  | [], _, _, h => absurd h (List.not_mem_nil _)
  | a :: as, f, c, h => by
      simp only [List.map_cons, rowGet]
      by_cases e : a = c
      · rw [if_pos e, e]
      · rw [if_neg e]
        refine rowGet_map_self as f c ?_
        rcases List.mem_cons.mp h with h1 | h1
        · exact absurd h1.symm e
        · exact h1

theorem rowGet_reindex (src tgt : List String) (r : List Cell) (c : String)
    (hc : c ∈ tgt) : rowGet tgt (reindexRow src tgt r) c = rowGet src r c :=
  rowGet_map_self tgt _ c hc

theorem mem_pdConcat_cols (a b : DataFrame) (c : String) :
    c ∈ (pdConcat a b).cols ↔ c ∈ a.cols ∨ c ∈ b.cols := by
  simp only [pdConcat, List.mem_append, List.mem_filter, decide_eq_true_eq]
  constructor
  · rintro (h | ⟨h, _⟩)
    · exact Or.inl h
    · exact Or.inr h
  · rintro (h | h)
    · exact Or.inl h
    · by_cases ha : c ∈ a.cols
      · exact Or.inl ha
      · exact Or.inr ⟨h, ha⟩

theorem project_ok (df : DataFrame) (hs : List String)
    (h : ∀ c ∈ hs, c ∈ df.cols) :
    df.project hs =
      .ok ⟨hs, df.rows.map (fun r => hs.map (fun c => rowGet df.cols r c))⟩ := by
  unfold DataFrame.project
  rw [if_pos h]

theorem project_err (df : DataFrame) (hs : List String)
    (h : ¬ ∀ c ∈ hs, c ∈ df.cols) : df.project hs = .error .keyError := by
  unfold DataFrame.project
  rw [if_neg h]

theorem project_cols (df : DataFrame) (hs : List String) (out : DataFrame)
    (h : df.project hs = .ok out) : out.cols = hs := by
  unfold DataFrame.project at h
  by_cases hc : ∀ c ∈ hs, c ∈ df.cols
  · rw [if_pos hc] at h
    injection h with h2
    rw [← h2]
  · rw [if_neg hc] at h
    exact Except.noConfusion h

theorem mem_uniqAux (l : List Cell) (v : Cell) : ∀ seen : List Cell,
    v ∈ uniqAux seen l ↔ v ∈ l ∧ v ∉ seen := by
  induction l with
  | nil => intro seen; simp [uniqAux]
  | cons x xs ih =>
      intro seen
      simp only [uniqAux]
      by_cases hx : x ∈ seen
      · rw [if_pos hx, ih seen]
        simp only [List.mem_cons]
        constructor
        · rintro ⟨h1, h2⟩
          exact ⟨Or.inr h1, h2⟩
        · rintro ⟨h1 | h1, h2⟩
          · rw [h1] at h2
            exact absurd hx h2
          · exact ⟨h1, h2⟩
      · rw [if_neg hx]
        simp only [List.mem_cons, ih (x :: seen)]
        constructor
        · rintro (h1 | ⟨h1, h2⟩)
          · rw [h1]
            exact ⟨Or.inl rfl, hx⟩
          · exact ⟨Or.inr h1, fun hm => h2 (Or.inr hm)⟩
        · rintro ⟨h1 | h1, h2⟩
          · exact Or.inl h1
          · by_cases hvx : v = x
            · exact Or.inl hvx
            · exact Or.inr ⟨h1, fun hm => by
                rcases hm with e | e
                · exact hvx e
                · exact h2 e⟩

theorem uniqAux_nodup (l : List Cell) : ∀ seen : List Cell,
    (uniqAux seen l).Nodup := by
  induction l with
  | nil => intro seen; simp [uniqAux]
  | cons x xs ih =>
      intro seen
      simp only [uniqAux]
      by_cases hx : x ∈ seen
      · rw [if_pos hx]
        exact ih seen
      · rw [if_neg hx]
        refine List.nodup_cons.mpr ⟨?_, ih (x :: seen)⟩
        intro hmem
        exact ((mem_uniqAux xs x (x :: seen)).mp hmem).2 (List.mem_cons_self x seen)

theorem uniqAux_sublist (l : List Cell) : ∀ seen : List Cell,
    (uniqAux seen l).Sublist l := by
  induction l with
  | nil => intro seen; simp [uniqAux]
  | cons x xs ih =>
      intro seen
      simp only [uniqAux]
      by_cases hx : x ∈ seen
      · rw [if_pos hx]
        exact (ih seen).cons x
      · rw [if_neg hx]
        exact (ih (x :: seen)).cons₂ x

theorem dictGet_eq_none (kvs : List (Cell × Cell)) (k : Cell)
    (h : ∀ p ∈ kvs, p.1 ≠ k) : dictGet kvs k = none := by
  induction kvs with
  | nil => rfl
  | cons p rest ih =>
      have hrest := ih (fun q hq => h q (List.mem_cons_of_mem p hq))
      simp only [dictGet, hrest]
      exact if_neg (h p (List.mem_cons_self p rest))

theorem dictGet_isSome_iff (kvs : List (Cell × Cell)) (k : Cell) :
    (dictGet kvs k).isSome ↔ ∃ p ∈ kvs, p.1 = k := by
  induction kvs with
  | nil => simp [dictGet]
  | cons p rest ih =>
      cases h : dictGet rest k with
      | some v =>
          simp only [dictGet, h, Option.isSome_some]
          constructor
          · intro _
            rw [h] at ih
            obtain ⟨q, hq, hqk⟩ := ih.mp (by simp)
            exact ⟨q, List.mem_cons_of_mem p hq, hqk⟩
          · intro _
            trivial
      | none =>
          simp only [dictGet, h]
          rw [h] at ih
          by_cases hp : p.1 = k
          · simp only [if_pos hp, Option.isSome_some]
            constructor
            · intro _
              exact ⟨p, List.mem_cons_self p rest, hp⟩
            · intro _
              trivial
          · simp only [if_neg hp, Option.isSome_none]
            constructor
            · intro hfalse
              exact absurd hfalse (by simp)
            · rintro ⟨q, hq, hqk⟩
              rcases List.mem_cons.mp hq with e | e
              · rw [e] at hqk
                exact absurd hqk hp
              · have : ∃ p ∈ rest, p.1 = k := ⟨q, e, hqk⟩
                have h2 := ih.mpr this
                simp at h2

theorem dictGet_append_of_some (l1 l2 : List (Cell × Cell)) (k : Cell) (v : Cell)
    (h : dictGet l2 k = some v) : dictGet (l1 ++ l2) k = some v := by
  induction l1 with
  | nil => exact h
  | cons p rest ih => simp only [List.cons_append, dictGet, List.append_eq, ih]

theorem dictGet_nodup_keys (kvs : List (Cell × Cell)) (k v : Cell)
    (hnd : (kvs.map Prod.fst).Nodup) (hmem : (k, v) ∈ kvs) :
    dictGet kvs k = some v := by
  induction kvs with
  | nil => cases hmem
  | cons p rest ih =>
      rcases List.mem_cons.mp hmem with h1 | h1
      · have hk : p.1 = k := by rw [← h1]
        have hv : p.2 = v := by rw [← h1]
        have hnotin : p.1 ∉ rest.map Prod.fst :=
          (List.nodup_cons.mp (by simpa using hnd)).1
        have hnone : dictGet rest k = none := by
          refine dictGet_eq_none rest k ?_
          intro q hq he
          exact hnotin (by rw [hk, ← he]; exact List.mem_map_of_mem Prod.fst hq)
        simp only [dictGet, hnone, if_pos hk, hv]
      · have : dictGet rest k = some v :=
          ih (List.Nodup.of_cons (by simpa using hnd)) h1
        simp only [dictGet, this]

theorem zip_columns (df : DataFrame) (c1 c2 : String) :
    List.zip (df.column c1) (df.column c2) =
      df.rows.map (fun r => (rowGet df.cols r c1, rowGet df.cols r c2)) := by
  simp [DataFrame.column, List.zip_map']

/-! ### Evaluation lemmas for the two games methods -/

theorem getRegularGames_noneArg (ds : Dataset) (compact : Bool) :
    ds.getRegularGames .noneArg compact =
      ds.regular_results.project
        (if compact then ds.compact_headers else ds.detailed_headers) := rfl

theorem getRegularGames_intArg (ds : Dataset) (n : Int) (compact : Bool) :
    ds.getRegularGames (.intArg n) compact =
      ds.getRegularGames (.iterArg [n]) compact := rfl

theorem getRegularGames_iterArg (ds : Dataset) (l : List Int) (compact : Bool) :
    ds.getRegularGames (.iterArg l) compact =
      (ds.regular_results.filterIsin "Season" l).project
        (if compact then ds.compact_headers else ds.detailed_headers) := rfl

theorem getRegularGames_boolArg (ds : Dataset) (b : Bool) (compact : Bool) :
    ds.getRegularGames (.boolArg b) compact = .error .typeError := rfl

theorem getTourneyGames_noneArg (ds : Dataset) (compact : Bool) :
    ds.getTourneyGames .noneArg compact =
      ds.tourney_results.project
        (if compact then ds.compact_headers else ds.detailed_headers) := rfl

theorem getTourneyGames_intArg (ds : Dataset) (n : Int) (compact : Bool) :
    ds.getTourneyGames (.intArg n) compact =
      ds.getTourneyGames (.iterArg [n]) compact := rfl

theorem getTourneyGames_iterArg (ds : Dataset) (l : List Int) (compact : Bool) :
    ds.getTourneyGames (.iterArg l) compact =
      (ds.tourney_results.filterIsin "Season" l).project
        (if compact then ds.compact_headers else ds.detailed_headers) := rfl

theorem getTourneyGames_boolArg (ds : Dataset) (b : Bool) (compact : Bool) :
    ds.getTourneyGames (.boolArg b) compact = .error .typeError := rfl

/-- The header list chosen by either games method is contained in the
columns of the corresponding merged regular-season table. -/
theorem headers_sub_regular (rc rd : DataFrame) (compact : Bool) :
    ∀ c ∈ (if compact then rc.cols else rd.cols),
      c ∈ (pdConcat (rc.filterLt "Season" 2003) rd).cols := by
  intro c hc
  rw [mem_pdConcat_cols]
  cases compact with
  | false =>
      simp only [if_neg (by simp : ¬ (false = true))] at hc
      exact Or.inr hc
  | true =>
      simp only [if_pos rfl] at hc
      exact Or.inl hc

/-- What `pd.concat((x.loc[x.Season < 2003], y))` produces, for either
results pair: union schema, basic-era rows (strictly pre-2003) stacked on
all extended rows, pre-2003 filter excluding every later basic row, and
nulls in the extended-only columns of basic-era rows. -/
theorem merged_table_spec (a b : DataFrame) :
    (∀ c, c ∈ (pdConcat (a.filterLt "Season" 2003) b).cols ↔
      c ∈ a.cols ∨ c ∈ b.cols) ∧
    (pdConcat (a.filterLt "Season" 2003) b).rows =
      ((a.rows.filter (fun r => cellLtInt (rowGet a.cols r "Season") 2003)).map
        (reindexRow a.cols (pdConcat (a.filterLt "Season" 2003) b).cols)) ++
      b.rows.map (reindexRow b.cols (pdConcat (a.filterLt "Season" 2003) b).cols) ∧
    (∀ r (y : Int), rowGet a.cols r "Season" = some (.int y) → 2003 ≤ y →
      r ∉ a.rows.filter (fun r => cellLtInt (rowGet a.cols r "Season") 2003)) ∧
    (∀ r, r ∈ a.rows → ∀ c, c ∈ (pdConcat (a.filterLt "Season" 2003) b).cols →
      c ∉ a.cols →
      rowGet (pdConcat (a.filterLt "Season" 2003) b).cols
        (reindexRow a.cols (pdConcat (a.filterLt "Season" 2003) b).cols r) c =
        none) := by
  refine ⟨?_, rfl, ?_, ?_⟩
  · intro c
    exact mem_pdConcat_cols (a.filterLt "Season" 2003) b c
  · intro r y hy hge hmem
    have h2 := (List.mem_filter.mp hmem).2
    rw [hy] at h2
    simp only [cellLtInt, decide_eq_true_eq] at h2
    omega
  · intro r _ c hc hca
    rw [rowGet_reindex _ _ _ _ hc]
    exact rowGet_not_mem _ _ _ hca

/-- C1: at construction the merged regular-season table (and likewise
the merged tournament table) is the basic-file rows with Season < 2003
stacked on top of all extended-file rows, with the union schema, the
extended-only fields null on basic-era rows, and every basic-file row
with Season >= 2003 excluded by the filter. -/
theorem C1_merged_tables (rc tc rd td tm ss sd sl : DataFrame) (ds : Dataset)
    (hds : ds = Dataset.init rc tc rd td tm ss sd sl) :
    ((∀ c, c ∈ ds.regular_results.cols ↔ c ∈ rc.cols ∨ c ∈ rd.cols) ∧
      ds.regular_results.rows =
        ((rc.rows.filter (fun r => cellLtInt (rowGet rc.cols r "Season") 2003)).map
          (reindexRow rc.cols ds.regular_results.cols)) ++
        rd.rows.map (reindexRow rd.cols ds.regular_results.cols) ∧
      (∀ r (y : Int), rowGet rc.cols r "Season" = some (.int y) → 2003 ≤ y →
        r ∉ rc.rows.filter (fun r => cellLtInt (rowGet rc.cols r "Season") 2003)) ∧
      (∀ r, r ∈ rc.rows → ∀ c, c ∈ ds.regular_results.cols → c ∉ rc.cols →
        rowGet ds.regular_results.cols
          (reindexRow rc.cols ds.regular_results.cols r) c = none)) ∧
    ((∀ c, c ∈ ds.tourney_results.cols ↔ c ∈ tc.cols ∨ c ∈ td.cols) ∧
      ds.tourney_results.rows =
        ((tc.rows.filter (fun r => cellLtInt (rowGet tc.cols r "Season") 2003)).map
          (reindexRow tc.cols ds.tourney_results.cols)) ++
        td.rows.map (reindexRow td.cols ds.tourney_results.cols) ∧
      (∀ r (y : Int), rowGet tc.cols r "Season" = some (.int y) → 2003 ≤ y →
        r ∉ tc.rows.filter (fun r => cellLtInt (rowGet tc.cols r "Season") 2003)) ∧
      (∀ r, r ∈ tc.rows → ∀ c, c ∈ ds.tourney_results.cols → c ∉ tc.cols →
        rowGet ds.tourney_results.cols
          (reindexRow tc.cols ds.tourney_results.cols r) c = none)) := by
  subst hds
  exact ⟨merged_table_spec rc rd, merged_table_spec tc td⟩

/-- Witness for C1 on the concrete files: the extended-only column is in
the merged schema, the merged rows are the expected stacking, the 2003
basic row is excluded, and the extended-only cell of the 1985 row is
null. -/
theorem C1_merged_tables_w :
    ("Wfgm" ∈ dsS.regular_results.cols) ∧
    dsS.regular_results.rows =
      [[some (.int 1985), some (.int 3), none],
       [some (.int 2003), some (.int 4), some (.int 20)]] ∧
    [some (Val.int 2003), some (Val.int 4)] ∉
      rcS.rows.filter (fun r => cellLtInt (rowGet rcS.cols r "Season") 2003) ∧
    rowGet dsS.regular_results.cols
      (reindexRow rcS.cols dsS.regular_results.cols
        [some (.int 1985), some (.int 3)]) "Wfgm" = none := by
  have h := C1_merged_tables rcS tcS rdS tdS tmS ssS sdS slS dsS rfl
  have hmem : "Wfgm" ∈ dsS.regular_results.cols :=
    (h.1.1 "Wfgm").mpr (Or.inr (by decide))
  refine ⟨hmem, ?_, ?_, ?_⟩
  · rw [h.1.2.1]
    decide
  · exact h.1.2.2.1 [some (.int 2003), some (.int 4)] 2003 (by decide) (by omega)
  · exact h.1.2.2.2 [some (.int 1985), some (.int 3)] (by decide) "Wfgm" hmem
      (by decide)

/-- Evaluation of the shared filter-and-project body of the two games
methods over any table whose columns contain the chosen headers: the
unfiltered projection keeps every row, the filtered projection keeps
exactly the rows whose `Season` is in the list, and an unmatched season
list yields an empty frame rather than an error. -/
theorem games_eval_all (tbl : DataFrame) (hd : List String)
    (h : ∀ c ∈ hd, c ∈ tbl.cols) :
    tbl.project hd =
      .ok ⟨hd, tbl.rows.map (fun r => hd.map (fun c => rowGet tbl.cols r c))⟩ ∧
    (∀ l, (tbl.filterIsin "Season" l).project hd =
      .ok ⟨hd, (tbl.rows.filter
          (fun r => cellInInts (rowGet tbl.cols r "Season") l)).map
        (fun r => hd.map (fun c => rowGet tbl.cols r c))⟩) ∧
    (∀ l, (∀ r ∈ tbl.rows, cellInInts (rowGet tbl.cols r "Season") l = false) →
      (tbl.filterIsin "Season" l).project hd = .ok ⟨hd, []⟩) := by
  refine ⟨project_ok _ _ h, fun l => project_ok _ _ h, fun l hl => ?_⟩
  have hfil : tbl.rows.filter
      (fun r => cellInInts (rowGet tbl.cols r "Season") l) = [] :=
    List.filter_eq_nil_iff.mpr (fun r hr => by rw [hl r hr]; simp)
  have hframe : tbl.filterIsin "Season" l = ⟨tbl.cols, []⟩ := by
    simp only [DataFrame.filterIsin]
    rw [hfil]
  rw [hframe]
  simpa using project_ok ⟨tbl.cols, []⟩ hd h

/-- C2: for both games methods, a null season returns every merged row,
an integer or collection season returns exactly the rows whose Season
value lies in the given set, and an unmatched season set yields a frame
with zero rows and no error. -/
theorem C2_season_filter (rc tc rd td tm ss sd sl : DataFrame) (ds : Dataset)
    (compact : Bool) (hd : List String)
    (hds : ds = Dataset.init rc tc rd td tm ss sd sl)
    (hhd : hd = if compact then rc.cols else rd.cols)
    (hT : ∀ c ∈ hd, c ∈ ds.tourney_results.cols) :
    (ds.getRegularGames .noneArg compact = .ok ⟨hd,
        ds.regular_results.rows.map
          (fun r => hd.map (fun c => rowGet ds.regular_results.cols r c))⟩) ∧
    (∀ n : Int, ds.getRegularGames (.intArg n) compact = .ok ⟨hd,
        (ds.regular_results.rows.filter
            (fun r => cellInInts (rowGet ds.regular_results.cols r "Season") [n])).map
          (fun r => hd.map (fun c => rowGet ds.regular_results.cols r c))⟩) ∧
    (∀ l : List Int, ds.getRegularGames (.iterArg l) compact = .ok ⟨hd,
        (ds.regular_results.rows.filter
            (fun r => cellInInts (rowGet ds.regular_results.cols r "Season") l)).map
          (fun r => hd.map (fun c => rowGet ds.regular_results.cols r c))⟩) ∧
    (∀ l : List Int,
      (∀ r ∈ ds.regular_results.rows,
        cellInInts (rowGet ds.regular_results.cols r "Season") l = false) →
      ds.getRegularGames (.iterArg l) compact = .ok ⟨hd, []⟩) ∧
    (ds.getTourneyGames .noneArg compact = .ok ⟨hd,
        ds.tourney_results.rows.map
          (fun r => hd.map (fun c => rowGet ds.tourney_results.cols r c))⟩) ∧
    (∀ n : Int, ds.getTourneyGames (.intArg n) compact = .ok ⟨hd,
        (ds.tourney_results.rows.filter
            (fun r => cellInInts (rowGet ds.tourney_results.cols r "Season") [n])).map
          (fun r => hd.map (fun c => rowGet ds.tourney_results.cols r c))⟩) ∧
    (∀ l : List Int, ds.getTourneyGames (.iterArg l) compact = .ok ⟨hd,
        (ds.tourney_results.rows.filter
            (fun r => cellInInts (rowGet ds.tourney_results.cols r "Season") l)).map
          (fun r => hd.map (fun c => rowGet ds.tourney_results.cols r c))⟩) ∧
    (∀ l : List Int,
      (∀ r ∈ ds.tourney_results.rows,
        cellInInts (rowGet ds.tourney_results.cols r "Season") l = false) →
      ds.getTourneyGames (.iterArg l) compact = .ok ⟨hd, []⟩) := by
  subst hds
  subst hhd
  have hR := headers_sub_regular rc rd compact
  obtain ⟨r1, r2, r3⟩ :=
    games_eval_all (Dataset.init rc tc rd td tm ss sd sl).regular_results _ hR
  obtain ⟨t1, t2, t3⟩ :=
    games_eval_all (Dataset.init rc tc rd td tm ss sd sl).tourney_results _ hT
  exact ⟨r1, fun n => r2 [n], r2, r3, t1, fun n => t2 [n], t2, t3⟩

/-- Witness for C2 on the concrete files: a single-season query, an
unmatched-season query (zero rows, no error) and an unfiltered tourney
query. -/
theorem C2_season_filter_w :
    dsS.getRegularGames (.intArg 2003) true =
      .ok ⟨["Season", "Wteam"], [[some (.int 2003), some (.int 4)]]⟩ ∧
    dsS.getRegularGames (.iterArg [1999]) true = .ok ⟨["Season", "Wteam"], []⟩ ∧
    dsS.getTourneyGames .noneArg true =
      .ok ⟨["Season", "Wteam"],
        [[some (.int 1985), some (.int 3)], [some (.int 2003), some (.int 4)]]⟩ := by
  have h := C2_season_filter rcS tcS rdS tdS tmS ssS sdS slS dsS true
      ["Season", "Wteam"] rfl rfl (by decide)
  refine ⟨(h.2.1 2003).trans rfl, h.2.2.2.1 [1999] (by decide), ?_⟩
  exact h.2.2.2.2.1.trans rfl

/-- C3: both games methods return a frame whose columns are exactly the
basic header list when `compact` is true and the extended header list
when `compact` is false, in that order, and the two header lists are
fixed at construction from the schemas of the two regular-season source
files. -/
theorem C3_projected_columns (rc tc rd td tm ss sd sl : DataFrame) (ds : Dataset)
    (compact : Bool) (arg : SeasonArg)
    (hds : ds = Dataset.init rc tc rd td tm ss sd sl) :
    ds.compact_headers = rc.cols ∧ ds.detailed_headers = rd.cols ∧
    (∀ out, ds.getRegularGames arg compact = .ok out →
      out.cols = if compact then rc.cols else rd.cols) ∧
    (∀ out, ds.getTourneyGames arg compact = .ok out →
      out.cols = if compact then rc.cols else rd.cols) := by
  subst hds
  refine ⟨rfl, rfl, ?_, ?_⟩
  · intro out hout
    cases arg with
    | noneArg =>
        rw [getRegularGames_noneArg] at hout
        exact project_cols _ _ _ hout
    | intArg n =>
        rw [getRegularGames_intArg, getRegularGames_iterArg] at hout
        exact project_cols _ _ _ hout
    | iterArg l =>
        rw [getRegularGames_iterArg] at hout
        exact project_cols _ _ _ hout
    | boolArg b =>
        rw [getRegularGames_boolArg] at hout
        exact Except.noConfusion hout
  · intro out hout
    cases arg with
    | noneArg =>
        rw [getTourneyGames_noneArg] at hout
        exact project_cols _ _ _ hout
    | intArg n =>
        rw [getTourneyGames_intArg, getTourneyGames_iterArg] at hout
        exact project_cols _ _ _ hout
    | iterArg l =>
        rw [getTourneyGames_iterArg] at hout
        exact project_cols _ _ _ hout
    | boolArg b =>
        rw [getTourneyGames_boolArg] at hout
        exact Except.noConfusion hout

/-- Witness for C3 on the concrete files: the header attributes come
from the source schemas and a detailed query carries the extended
columns. -/
theorem C3_projected_columns_w :
    dsS.compact_headers = rcS.cols ∧
    (DataFrame.mk ["Season", "Wteam", "Wfgm"]
        [[some (.int 2003), some (.int 4), some (.int 20)]]).cols =
      if false then rcS.cols else rdS.cols := by
  have h := C3_projected_columns rcS tcS rdS tdS tmS ssS sdS slS dsS false
      (.intArg 2003) rfl
  exact ⟨h.1, h.2.2.1 _ rfl⟩

/-- C4: for every id keyed in the teams dict built from `Teams.csv` (ids
assumed unique as in the file), `getTeam` returns the paired name; for
an id absent from the `Team_Id` column it raises the KeyError
equivalent; and the call does not change the instance state. -/
theorem C4_getTeam_spec (rc tc rd td tm ss sd sl : DataFrame) (ds : Dataset)
    (hds : ds = Dataset.init rc tc rd td tm ss sd sl)
    (hnd : (tm.column "Team_Id").Nodup) :
    (∀ (i : Int) (name : Cell), (some (.int i), name) ∈ ds.teams →
      ds.getTeam i = .ok name) ∧
    (∀ i : Int, some (Val.int i) ∉ tm.column "Team_Id" →
      ds.getTeam i = .error .keyError) ∧
    (∀ i : Int, ds.getTeamSt i = (ds.getTeam i, ds)) := by
  subst hds
  have hteams : (Dataset.init rc tc rd td tm ss sd sl).teams =
      tm.rows.map (fun r =>
        (rowGet tm.cols r "Team_Id", rowGet tm.cols r "Team_Name")) :=
    zip_columns tm "Team_Id" "Team_Name"
  have hkeys : (Dataset.init rc tc rd td tm ss sd sl).teams.map Prod.fst =
      tm.column "Team_Id" := by
    rw [hteams, List.map_map]
    rfl
  refine ⟨?_, ?_, fun i => rfl⟩
  · intro i name hmem
    have hd : dictGet (Dataset.init rc tc rd td tm ss sd sl).teams
        (some (.int i)) = some name :=
      dictGet_nodup_keys _ _ _ (by rw [hkeys]; exact hnd) hmem
    simp only [Dataset.getTeam, hd]
  · intro i hni
    have hd : dictGet (Dataset.init rc tc rd td tm ss sd sl).teams
        (some (.int i)) = none := by
      refine dictGet_eq_none _ _ ?_
      intro p hp he
      apply hni
      rw [← hkeys, ← he]
      exact List.mem_map_of_mem Prod.fst hp
    simp only [Dataset.getTeam, hd]

/-- Witness for C4 on the concrete files: a present id returns its name,
an absent id raises KeyError. -/
theorem C4_getTeam_spec_w :
    dsS.getTeam 3 = .ok (some (.str "Duke")) ∧
    dsS.getTeam 9 = .error .keyError := by
  have h := C4_getTeam_spec rcS tcS rdS tdS tmS ssS sdS slS dsS rfl (by decide)
  exact ⟨h.1 3 (some (.str "Duke")) (by decide), h.2.1 9 (by decide)⟩

/-- C5: the seed mapping for a season has as keys exactly the team ids
of the seed rows of that season, maps each key to the Seed of the last
matching row (so a duplicated team id within one season resolves
last-one-wins), and is empty when no row matches. -/
theorem C5_getSeeds_spec (rc tc rd td tm ss sd sl : DataFrame) (ds : Dataset)
    (s : Int) (hds : ds = Dataset.init rc tc rd td tm ss sd sl) :
    (∀ k, (dictGet (ds.getSeeds s) k).isSome ↔
      ∃ r ∈ sd.rows.filter (fun r => cellEqInt (rowGet sd.cols r "Season") s),
        rowGet sd.cols r "Team" = k) ∧
    (∀ k l1 row l2,
      sd.rows.filter (fun r => cellEqInt (rowGet sd.cols r "Season") s) =
        l1 ++ row :: l2 →
      rowGet sd.cols row "Team" = k →
      (∀ r2 ∈ l2, rowGet sd.cols r2 "Team" ≠ k) →
      dictGet (ds.getSeeds s) k = some (rowGet sd.cols row "Seed")) ∧
    ((∀ r ∈ sd.rows, cellEqInt (rowGet sd.cols r "Season") s = false) →
      ds.getSeeds s = []) := by
  subst hds
  have hseeds : (Dataset.init rc tc rd td tm ss sd sl).getSeeds s =
      (sd.rows.filter (fun r => cellEqInt (rowGet sd.cols r "Season") s)).map
        (fun r => (rowGet sd.cols r "Team", rowGet sd.cols r "Seed")) :=
    zip_columns (sd.filterEq "Season" s) "Team" "Seed"
  refine ⟨?_, ?_, ?_⟩
  · intro k
    rw [hseeds, dictGet_isSome_iff]
    constructor
    · rintro ⟨p, hp, hpk⟩
      obtain ⟨r, hr, he⟩ := List.mem_map.mp hp
      refine ⟨r, hr, ?_⟩
      rw [← he] at hpk
      exact hpk
    · rintro ⟨r, hr, hk⟩
      exact ⟨(rowGet sd.cols r "Team", rowGet sd.cols r "Seed"),
        List.mem_map_of_mem _ hr, hk⟩
  · intro k l1 row l2 hsplit hk hl2
    rw [hseeds, hsplit, List.map_append, List.map_cons]
    apply dictGet_append_of_some
    have hnone : dictGet (l2.map (fun r =>
        (rowGet sd.cols r "Team", rowGet sd.cols r "Seed"))) k = none := by
      refine dictGet_eq_none _ _ ?_
      intro p hp
      obtain ⟨r2, hr2, he⟩ := List.mem_map.mp hp
      rw [← he]
      exact hl2 r2 hr2
    simp only [dictGet, hnone]
    rw [if_pos hk]
  · intro hall
    have hfil : sd.rows.filter
        (fun r => cellEqInt (rowGet sd.cols r "Season") s) = [] :=
      List.filter_eq_nil_iff.mpr (fun r hr => by rw [hall r hr]; simp)
    rw [hseeds, hfil]
    rfl

/-- Witness for C5 on the concrete files: the duplicated team id 4 in
season 2003 resolves to the seed of the last row, an absent team id is
not a key, and an empty season gives the empty mapping. -/
theorem C5_getSeeds_spec_w :
    dictGet (dsS.getSeeds 2003) (some (.int 4)) = some (some (.str "W02")) ∧
    (dictGet (dsS.getSeeds 2003) (some (.int 9))).isSome = false ∧
    dsS.getSeeds 1999 = [] := by
  have h := C5_getSeeds_spec rcS tcS rdS tdS tmS ssS sdS slS dsS 2003 rfl
  have h2 := C5_getSeeds_spec rcS tcS rdS tdS tmS ssS sdS slS dsS 1999 rfl
  refine ⟨?_, ?_, h2.2.2 (by decide)⟩
  · exact (h.2.1 (some (.int 4))
      [[some (.int 2003), some (.str "W01"), some (.int 4)]]
      [some (.int 2003), some (.str "W02"), some (.int 4)] [] rfl rfl
      (fun r2 hr2 => absurd hr2 (List.not_mem_nil r2))).trans rfl
  · rw [Bool.eq_false_iff]
    intro hsome
    obtain ⟨r, hr, hteam⟩ := (h.1 (some (.int 9))).mp hsome
    have hmem : r ∈ sdS.rows := List.mem_of_mem_filter hr
    simp only [sdS, List.mem_cons, List.not_mem_nil, or_false] at hmem
    rcases hmem with h1 | h1 <;> rw [h1] at hteam <;> exact absurd hteam (by decide)

/-- C6: `getYears` returns the distinct values of the Season column of
the season table, without duplicates, keeping the table's source row
order (it is a sublist of the column, so no sorting is imposed); being a
pure function its result is computed afresh from the stored table at
every call. -/
theorem C6_getYears_spec (ds : Dataset) :
    ds.getYears.Nodup ∧
    (∀ v, v ∈ ds.getYears ↔ v ∈ ds.seasons.column "Season") ∧
    ds.getYears.Sublist (ds.seasons.column "Season") := by
  refine ⟨uniqAux_nodup _ [], ?_, uniqAux_sublist _ []⟩
  intro v
  simp only [Dataset.getYears, mem_uniqAux, List.not_mem_nil, not_false_iff,
    and_true]

/-- C7: compact projection is consistent across the concatenation
boundary: the unfiltered compact regular-season query returns, for every
basic-era row, exactly its values under the basic schema, and for every
extended-era row, exactly the values that row carries (at the basic
column names) in the full extended schema. -/
theorem C7_roundtrip (rc tc rd td tm ss sd sl : DataFrame) (ds : Dataset)
    (hds : ds = Dataset.init rc tc rd td tm ss sd sl) :
    ds.getRegularGames .noneArg true =
      .ok ⟨rc.cols,
        ((rc.rows.filter (fun r => cellLtInt (rowGet rc.cols r "Season") 2003)).map
          (fun r => rc.cols.map (fun c => rowGet rc.cols r c))) ++
        rd.rows.map (fun r => rc.cols.map (fun c => rowGet rd.cols r c))⟩ := by
  subst hds
  have hR : ∀ c ∈ rc.cols,
      c ∈ (Dataset.init rc tc rd td tm ss sd sl).regular_results.cols :=
    headers_sub_regular rc rd true
  have h1 : (Dataset.init rc tc rd td tm ss sd sl).getRegularGames .noneArg true =
      .ok ⟨rc.cols,
        (Dataset.init rc tc rd td tm ss sd sl).regular_results.rows.map
          (fun r => rc.cols.map (fun c =>
            rowGet (Dataset.init rc tc rd td tm ss sd sl).regular_results.cols r c))⟩ :=
    project_ok _ _ hR
  rw [h1]
  have hrows : (Dataset.init rc tc rd td tm ss sd sl).regular_results.rows =
      ((rc.rows.filter (fun r => cellLtInt (rowGet rc.cols r "Season") 2003)).map
        (reindexRow rc.cols
          (Dataset.init rc tc rd td tm ss sd sl).regular_results.cols)) ++
      rd.rows.map (reindexRow rd.cols
        (Dataset.init rc tc rd td tm ss sd sl).regular_results.cols) := rfl
  rw [hrows, List.map_append, List.map_map, List.map_map]
  refine congrArg Except.ok ?_
  refine congrArg (DataFrame.mk rc.cols) ?_
  refine congrArg₂ List.append ?_ ?_
  · refine List.map_congr_left ?_
    intro r _
    simp only [Function.comp_apply]
    refine List.map_congr_left ?_
    intro c hc
    exact rowGet_reindex rc.cols _ r c (List.mem_append_left _ hc)
  · refine List.map_congr_left ?_
    intro r _
    simp only [Function.comp_apply]
    refine List.map_congr_left ?_
    intro c hc
    exact rowGet_reindex rd.cols _ r c (List.mem_append_left _ hc)

/-- Witness for C7 on the concrete files: the compact projection of the
merged table restores the basic row and reads the extended row's basic
columns. -/
theorem C7_roundtrip_w :
    dsS.getRegularGames .noneArg true =
      .ok ⟨["Season", "Wteam"],
        [[some (.int 1985), some (.int 3)], [some (.int 2003), some (.int 4)]]⟩ :=
  (C7_roundtrip rcS tcS rdS tdS tmS ssS sdS slS dsS rfl).trans rfl

/-- C8: every query method, written in explicit state-passing form,
returns the instance state unchanged, and the value it pairs with the
state is the pure function of the stored tables (each games call builds
its result frame afresh by filtering and projecting the stored table
rather than handing back stored state). -/
theorem C8_no_mutation (ds : Dataset) (id s : Int) (arg : SeasonArg) (c : Bool) :
    (ds.getTeamSt id).2 = ds ∧ ds.getYearsSt.2 = ds ∧ (ds.getSeedsSt s).2 = ds ∧
    (ds.getRegularGamesSt arg c).2 = ds ∧ (ds.getTourneyGamesSt arg c).2 = ds ∧
    (ds.getTeamSt id).1 = ds.getTeam id ∧ ds.getYearsSt.1 = ds.getYears ∧
    (ds.getSeedsSt s).1 = ds.getSeeds s ∧
    (ds.getRegularGamesSt arg c).1 = ds.getRegularGames arg c ∧
    (ds.getTourneyGamesSt arg c).1 = ds.getTourneyGames arg c :=
  ⟨rfl, rfl, rfl, rfl, rfl, rfl, rfl, rfl, rfl, rfl⟩

/-- C9: both header lists come from the two regular-season files alone
(the same lists result whatever tournament files are loaded), and for
any season argument that does not itself raise TypeError,
`getTourneyGames` succeeds exactly when every selected regular-season
header occurs in the merged tournament table and raises KeyError
otherwise. -/
theorem C9_header_source (rc tc rd td tm ss sd sl tc2 td2 : DataFrame)
    (ds ds2 : Dataset) (compact : Bool) (arg : SeasonArg)
    (hds : ds = Dataset.init rc tc rd td tm ss sd sl)
    (hds2 : ds2 = Dataset.init rc tc2 rd td2 tm ss sd sl)
    (hb : ∀ b, arg ≠ SeasonArg.boolArg b) :
    ds.compact_headers = rc.cols ∧ ds.detailed_headers = rd.cols ∧
    ds.compact_headers = ds2.compact_headers ∧
    ds.detailed_headers = ds2.detailed_headers ∧
    ((∃ out, ds.getTourneyGames arg compact = .ok out) ↔
      ∀ c ∈ (if compact then rc.cols else rd.cols),
        c ∈ ds.tourney_results.cols) ∧
    (¬ (∀ c ∈ (if compact then rc.cols else rd.cols),
        c ∈ ds.tourney_results.cols) →
      ds.getTourneyGames arg compact = .error .keyError) := by
  subst hds
  subst hds2
  have key : ∀ (tbl : DataFrame) (hd : List String),
      ((∃ out, tbl.project hd = .ok out) ↔ ∀ c ∈ hd, c ∈ tbl.cols) ∧
      (¬ (∀ c ∈ hd, c ∈ tbl.cols) → tbl.project hd = .error .keyError) := by
    intro tbl hd
    refine ⟨⟨?_, ?_⟩, project_err tbl hd⟩
    · rintro ⟨out, hout⟩
      by_contra hc
      rw [project_err _ _ hc] at hout
      exact Except.noConfusion hout
    · intro hc
      exact ⟨_, project_ok _ _ hc⟩
  have hpair :
      ((∃ out, (Dataset.init rc tc rd td tm ss sd sl).getTourneyGames arg compact
          = .ok out) ↔
        ∀ c ∈ (if compact then rc.cols else rd.cols),
          c ∈ (Dataset.init rc tc rd td tm ss sd sl).tourney_results.cols) ∧
      (¬ (∀ c ∈ (if compact then rc.cols else rd.cols),
          c ∈ (Dataset.init rc tc rd td tm ss sd sl).tourney_results.cols) →
        (Dataset.init rc tc rd td tm ss sd sl).getTourneyGames arg compact
          = .error .keyError) := by
    cases arg with
    | boolArg b => exact absurd rfl (hb b)
    | noneArg =>
        exact key (Dataset.init rc tc rd td tm ss sd sl).tourney_results
          (if compact then rc.cols else rd.cols)
    | intArg n =>
        exact key ((Dataset.init rc tc rd td tm ss sd sl).tourney_results.filterIsin
          "Season" [n]) (if compact then rc.cols else rd.cols)
    | iterArg l =>
        exact key ((Dataset.init rc tc rd td tm ss sd sl).tourney_results.filterIsin
          "Season" l) (if compact then rc.cols else rd.cols)
  exact ⟨rfl, rfl, rfl, rfl, hpair.1, hpair.2⟩

/-- Witness for C9: with tournament files whose schema lacks a
regular-season column the query raises KeyError, and with matching
schemas it succeeds. -/
theorem C9_header_source_w :
    dsB.getTourneyGames .noneArg true = .error .keyError ∧
    (∃ out, dsS.getTourneyGames .noneArg true = .ok out) := by
  have h1 := C9_header_source rcS tcB rdS tdB tmS ssS sdS slS tcS tdS dsB dsS
      true .noneArg rfl rfl (fun b h => SeasonArg.noConfusion h)
  have h2 := C9_header_source rcS tcS rdS tdS tmS ssS sdS slS tcB tdB dsS dsB
      true .noneArg rfl rfl (fun b h => SeasonArg.noConfusion h)
  exact ⟨h1.2.2.2.2.2 (by decide), h2.2.2.2.2.1.mpr (by decide)⟩

/-- C10: a non-null season behaves as a single season only when it is
(runtime-typed) an `int`, in which case it is wrapped into a one-element
list; a bool (or any other non-iterable scalar) flows into
`list(season)` and raises TypeError in both methods; and any iterable of
integers is accepted (it reaches the filter-and-project stage and can
never raise TypeError). -/
theorem C10_season_type_dispatch (ds : Dataset) (compact : Bool) :
    (∀ b, ds.getRegularGames (.boolArg b) compact = .error .typeError ∧
      ds.getTourneyGames (.boolArg b) compact = .error .typeError) ∧
    (∀ n, ds.getRegularGames (.intArg n) compact =
        ds.getRegularGames (.iterArg [n]) compact ∧
      ds.getTourneyGames (.intArg n) compact =
        ds.getTourneyGames (.iterArg [n]) compact) ∧
    (∀ l, ds.getRegularGames (.iterArg l) compact =
        (ds.regular_results.filterIsin "Season" l).project
          (if compact then ds.compact_headers else ds.detailed_headers) ∧
      ds.getRegularGames (.iterArg l) compact ≠ .error .typeError ∧
      ds.getTourneyGames (.iterArg l) compact ≠ .error .typeError) := by
  refine ⟨fun b => ⟨rfl, rfl⟩, fun n => ⟨rfl, rfl⟩, fun l => ⟨rfl, ?_, ?_⟩⟩
  · rw [getRegularGames_iterArg]
    by_cases hc : ∀ c ∈ (if compact then ds.compact_headers
        else ds.detailed_headers),
        c ∈ (ds.regular_results.filterIsin "Season" l).cols
    · rw [project_ok _ _ hc]
      exact fun h => Except.noConfusion h
    · rw [project_err _ _ hc]
      intro h
      injection h with h2
      exact PyError.noConfusion h2
  · rw [getTourneyGames_iterArg]
    by_cases hc : ∀ c ∈ (if compact then ds.compact_headers
        else ds.detailed_headers),
        c ∈ (ds.tourney_results.filterIsin "Season" l).cols
    · rw [project_ok _ _ hc]
      exact fun h => Except.noConfusion h
    · rw [project_err _ _ hc]
      intro h
      injection h with h2
      exact PyError.noConfusion h2
